import Mathlib

/-!
Verification of the authentication/authorization subsystem and the user and
quote services of the awd-firstNest repository, as a shallow embedding in
Lean 4. Entities are records, the repository tables are lists, asynchronous
calls that may reject are values of `Except`, and the bcrypt comparison and
the HMAC of the JWT library are abstract function parameters.
-/

/-- The `User` entity (src/users/entities/user.entity.ts): uuid id, unique
userName, bcrypt-hashed password, profile fields. Timestamps are omitted as
they play no role in any verified property. -/
structure User where
  id : String
  userName : String
  password : String
  fName : String
  lName : String
  email : String
deriving Repr, DecidableEq

/-- `SafeUserDto = Omit<User, 'password'>` (src/users/dto/safe-user.dto.ts):
the user record without the password field. -/
structure SafeUserDto where
  id : String
  userName : String
  fName : String
  lName : String
  email : String
deriving Repr, DecidableEq

/-- The destructuring `const { password: _, ...safeUser } = user` used in
AuthService.validateUser and UsersService.create: every field of the record
except `password` is kept. -/
def stripPassword (u : User) : SafeUserDto :=
  { id := u.id, userName := u.userName, fName := u.fName
    lName := u.lName, email := u.email }

/-- `CreateUserDto` (src/users/dto/create-user.dto.ts). -/
structure CreateUserDto where
  userName : String
  password : String
  fName : String
  lName : String
  email : String
deriving Repr, DecidableEq

namespace UsersService

/-- `UsersService.findByUsername`: `userRepository.findOneBy({ userName })`,
the first stored user whose userName equals the argument, or null. -/
def findByUsername (store : List User) (userName : String) : Option User :=
  store.find? (fun u => u.userName == userName)

/-- `UsersService.findAll` (src/users/users.service.ts lines 28-34):
`find(filter ? { where: { userName : percent-filter-percent } } : {})`.
The where-clause value is the plain string `%` ++ filter ++ `%`, compared by
equality (no `Like` operator), and the JavaScript conditional `filter ?`
treats both an absent and an empty filter as falsy. -/
def findAll (store : List User) (filter : Option String) : List User :=
  match filter with
  | none => store
  | some f =>
    if f = "" then store
    else store.filter (fun u => u.userName == "%" ++ f ++ "%")

/-- `UsersService.create` (src/users/users.service.ts lines 17-26): hash the
password, save the record (the repository generates the id), then strip the
password from the saved entity before returning it. `hash` stands for
`bcrypt.hash(·, 10)` and `genId` for the uuid the repository assigns. -/
def create (hash : String → String) (genId : String) (dto : CreateUserDto) :
    SafeUserDto :=
  let newUser : User :=
    { id := genId, userName := dto.userName, password := hash dto.password
      fName := dto.fName, lName := dto.lName, email := dto.email }
  stripPassword newUser

end UsersService

namespace AuthService

/-- `AuthService.validateUser` (src/auth/auth.service.ts lines 14-26): look
up the user by name (null → null), `await bcrypt.compare(pass, user.password)`
(false → null), else strip the password and return the SafeUser. `compare` is
the bcrypt comparison, a promise that may reject, hence `Except`; a rejection
propagates out of validateUser, which has no try/catch. -/
def validateUser (compare : String → String → Except String Bool)
    (store : List User) (userName pass : String) :
    Except String (Option SafeUserDto) :=
  match UsersService.findByUsername store userName with
  | none => Except.ok none
  | some user =>
    match compare pass user.password with
    | Except.error e => Except.error e
    | Except.ok false => Except.ok none
    | Except.ok true => Except.ok (some (stripPassword user))

end AuthService

/-- C1: validateUser returns null for an unknown username, null for a failed
bcrypt comparison — the two null outcomes being the very same value — and on
a successful comparison the stored record with the password field removed. -/
theorem validateUser_claim (compare : String → String → Except String Bool)
    (store : List User) (userName pass : String) :
    (UsersService.findByUsername store userName = none →
      AuthService.validateUser compare store userName pass = Except.ok none) ∧
    (∀ u, UsersService.findByUsername store userName = some u →
      compare pass u.password = Except.ok false →
      AuthService.validateUser compare store userName pass = Except.ok none) ∧
    (∀ u, UsersService.findByUsername store userName = some u →
      compare pass u.password = Except.ok true →
      AuthService.validateUser compare store userName pass =
        Except.ok (some (stripPassword u))) := by
  refine ⟨fun h => ?_, fun u hu hc => ?_, fun u hu hc => ?_⟩
  · simp [AuthService.validateUser, h]
  · simp [AuthService.validateUser, hu, hc]
  · simp [AuthService.validateUser, hu, hc]

/-- Witness for C1 on a one-user store: unknown name gives ok none, a failing
comparison gives ok none, a succeeding comparison gives the stripped user. -/
theorem validateUser_claim_witness :
    AuthService.validateUser (fun p h => Except.ok (p == h))
      [⟨"u1", "john", "hash1", "J", "D", "j@x"⟩] "nobody" "pw"
      = Except.ok none ∧
    AuthService.validateUser (fun p h => Except.ok (p == h))
      [⟨"u1", "john", "hash1", "J", "D", "j@x"⟩] "john" "pw"
      = Except.ok none ∧
    AuthService.validateUser (fun p h => Except.ok (p == h))
      [⟨"u1", "john", "hash1", "J", "D", "j@x"⟩] "john" "hash1"
      = Except.ok (some ⟨"u1", "john", "J", "D", "j@x"⟩) :=
  ⟨(validateUser_claim _ _ _ _).1 (by decide),
   (validateUser_claim _ _ _ _).2.1 ⟨"u1", "john", "hash1", "J", "D", "j@x"⟩
     (by decide) (by rfl),
   (validateUser_claim _ _ _ _).2.2 ⟨"u1", "john", "hash1", "J", "D", "j@x"⟩
     (by decide) (by rfl)⟩

/-! ## The JWT codec: secret configuration, signing, verification -/

/-- The signing secret of `JwtModule.register` in the auth module:
`process.env.JWT_SECRET || 'YOUR_SECRET_KEY'`. The environment variable is
optional, and in JavaScript the empty string is falsy, so both an absent and
an empty variable select the placeholder. -/
def jwtModuleSecret (env : Option String) : String :=
  match env with
  | none => "YOUR_SECRET_KEY"
  | some s => if s = "" then "YOUR_SECRET_KEY" else s

/-- The verification secret of the JwtStrategy constructor, `secretOrKey:
process.env.JWT_SECRET || 'YOUR_SECRET_KEY'` — the same expression as in the
module registration, embedded separately because it is a separate code site. -/
def jwtStrategySecret (env : Option String) : String :=
  match env with
  | none => "YOUR_SECRET_KEY"
  | some s => if s = "" then "YOUR_SECRET_KEY" else s

/-- `signOptions: { expiresIn: '60s' }` of `JwtModule.register`. -/
def ttlSeconds : Nat := 60

/-- The configuration the auth module holds after startup. -/
structure JwtConfig where
  secret : String
  expiresIn : Nat
deriving Repr, DecidableEq

/-- Startup of the auth module: `JwtModule.register` evaluates the secret
expression and always succeeds — the code has no validation of the secret and
no error path, so the result is unconditionally `ok`. -/
def authModuleStartup (env : Option String) : Except String JwtConfig :=
  Except.ok { secret := jwtModuleSecret env, expiresIn := ttlSeconds }

/-- The JWT payload built by AuthService.login and handed back to
JwtStrategy.validate after verification: `{ sub, username }`. -/
structure JwtPayload where
  sub : String
  username : String
deriving Repr, DecidableEq

/-- The claims embedded in a signed token: the payload plus the issued-at
and expiry timestamps the JWT library adds (`iat`, `exp`; seconds). -/
structure JwtClaims where
  sub : String
  username : String
  iat : Nat
  exp : Nat
deriving Repr, DecidableEq

/-- A signed token: claims plus an HMAC-style signature over them. The MAC
itself is abstract throughout (a function of the secret and the claims). -/
structure Token where
  claims : JwtClaims
  sig : Nat
deriving Repr, DecidableEq

/-- `jwtService.sign(payload)` with `expiresIn` ttl at time `now`: embed the
payload with `iat = now` and `exp = now + ttl`, and sign the claims with the
secret under the abstract MAC. -/
def sign (mac : String → JwtClaims → Nat) (secret : String) (ttl : Nat)
    (payload : JwtPayload) (now : Nat) : Token :=
  let c : JwtClaims :=
    { sub := payload.sub, username := payload.username
      iat := now, exp := now + ttl }
  { claims := c, sig := mac secret c }

/-- Verification and decoding as passport-jwt performs it with
`ignoreExpiration: false`: accept exactly when the signature matches the MAC
of the claims under the secret and the current time is before the embedded
expiry; any failure is the single undifferentiated rejection `none`. -/
def verifyAndDecode (mac : String → JwtClaims → Nat) (secret : String)
    (now : Nat) (t : Token) : Option JwtPayload :=
  if t.sig = mac secret t.claims ∧ now < t.claims.exp then
    some { sub := t.claims.sub, username := t.claims.username }
  else none

/-- The identity JwtStrategy attaches to the request context. -/
structure RequestIdentity where
  userId : String
  username : String
deriving Repr, DecidableEq

/-- `JwtStrategy.validate(payload)`: shape the verified payload into
`{ userId: payload.sub, username: payload.username }` for `req.user`. -/
def jwtStrategyValidate (p : JwtPayload) : RequestIdentity :=
  { userId := p.sub, username := p.username }

namespace AuthService

/-- `AuthService.login` (src/auth/auth.service.ts lines 28-34): build the
payload `{ username: user.userName, sub: user.id }` and sign it with the
module secret and TTL; the returned object's `access_token` field. -/
def login (mac : String → JwtClaims → Nat) (env : Option String) (now : Nat)
    (user : SafeUserDto) : Token :=
  sign mac (jwtModuleSecret env) ttlSeconds
    { sub := user.id, username := user.userName } now

end AuthService

/-- C2: a token issued by login for a SafeUser, verified with the strategy's
secret (the same expression as the module's) before the TTL has elapsed,
is accepted, and JwtStrategy.validate maps it to the RequestIdentity holding
exactly the id and userName of that SafeUser. -/
theorem login_roundtrip_claim (mac : String → JwtClaims → Nat)
    (env : Option String) (user : SafeUserDto) (now later : Nat)
    (h : later < now + ttlSeconds) :
    (verifyAndDecode mac (jwtStrategySecret env) later
        (AuthService.login mac env now user)).map jwtStrategyValidate
      = some { userId := user.id, username := user.userName } := by
  have hsec : jwtStrategySecret env = jwtModuleSecret env := by
    cases env <;> rfl
  simp [AuthService.login, sign, verifyAndDecode, hsec, h, jwtStrategyValidate]

/-- Witness for C2: a concrete user, the zero MAC, no environment secret,
issuance at time 0 and verification at time 59. -/
theorem login_roundtrip_claim_witness :
    (verifyAndDecode (fun _ _ => 0) (jwtStrategySecret none) 59
        (AuthService.login (fun _ _ => 0) none 0
          ⟨"u1", "john", "J", "D", "j@x"⟩)).map jwtStrategyValidate
      = some ⟨"u1", "john"⟩ :=
  login_roundtrip_claim (fun _ _ => 0) none ⟨"u1", "john", "J", "D", "j@x"⟩
    0 59 (by decide)

/-- C7: expiry is enforced. Any token whose embedded expiry is not in the
future is rejected, whatever its signature; in particular a token signed with
some ttl is rejected at every time from `now + ttl` on, and a token signed
with ttl 0 is rejected immediately. -/
theorem token_expiry_claim (mac : String → JwtClaims → Nat) (secret : String)
    (payload : JwtPayload) (now later : Nat) (t : Token)
    (hexp : t.claims.exp ≤ now) (hlater : now + ttlSeconds ≤ later) :
    verifyAndDecode mac secret now t = none ∧
    verifyAndDecode mac secret later
      (sign mac secret ttlSeconds payload now) = none ∧
    verifyAndDecode mac secret now (sign mac secret 0 payload now) = none := by
  refine ⟨?_, ?_, ?_⟩
  · simp [verifyAndDecode, Nat.not_lt.mpr hexp]
  · simp [verifyAndDecode, sign, Nat.not_lt.mpr hlater]
  · simp [verifyAndDecode, sign]

/-- Witness for C7: a concrete token whose expiry 0 has passed at time 0, a
token signed at 0 checked at 60, and a ttl-0 token checked at issuance. -/
theorem token_expiry_claim_witness :
    verifyAndDecode (fun _ _ => 0) "s" 0 ⟨⟨"u1", "john", 0, 0⟩, 0⟩ = none ∧
    verifyAndDecode (fun _ _ => 0) "s" 60
      (sign (fun _ _ => 0) "s" ttlSeconds ⟨"u1", "john"⟩ 0) = none ∧
    verifyAndDecode (fun _ _ => 0) "s" 0
      (sign (fun _ _ => 0) "s" 0 ⟨"u1", "john"⟩ 0) = none :=
  token_expiry_claim (fun _ _ => 0) "s" ⟨"u1", "john"⟩ 0 60
    ⟨⟨"u1", "john", 0, 0⟩, 0⟩ (by decide) (by decide)

/-! ## The global bearer-token gate -/

/-- The `@Public()` decorator, `SetMetadata(IS_PUBLIC_KEY, true)`: the only
value the repository ever attaches under the public key is `true`. -/
def publicMarkerValue : Bool := true

/-- `Reflector.getAllAndOverride(IS_PUBLIC_KEY, [handler, class])`: the first
scope in the list carrying metadata wins outright; metadata absent on both
yields undefined (`none`). -/
def getAllAndOverride (handler cls : Option Bool) : Option Bool :=
  match handler with
  | some b => some b
  | none => cls

/-- `ExtractJwt.fromAuthHeaderAsBearerToken()`: the token is the remainder of
the Authorization header after the bearer scheme prefix; a missing header or
a different scheme yields nothing. -/
def extractBearer (header : Option String) : Option String :=
  match header with
  | none => none
  | some h =>
    if h.startsWith ("Bearer ") then some (h.drop 7) else none

/-- The outcome of the gate for one request: admitted (with the identity
attached to the request context, or none on a public bypass) or rejected. -/
inductive GateResult where
  | admitted : Option RequestIdentity → GateResult
  | rejected : GateResult
deriving Repr, DecidableEq

/-- `super.canActivate` of `AuthGuard('jwt')`: extract the bearer token,
parse it (`parse` stands for the base64url decoding of the compact string
into claims and signature), verify and decode with the strategy secret, and
attach the shaped identity; every failure is a 401 rejection. -/
def jwtCheck (mac : String → JwtClaims → Nat) (parse : String → Option Token)
    (env : Option String) (now : Nat) (header : Option String) : GateResult :=
  match extractBearer header with
  | none => GateResult.rejected
  | some s =>
    match parse s with
    | none => GateResult.rejected
    | some t =>
      match verifyAndDecode mac (jwtStrategySecret env) now t with
      | none => GateResult.rejected
      | some p => GateResult.admitted (some (jwtStrategyValidate p))

namespace JwtAuthGuard

/-- `JwtAuthGuard.canActivate`: read the public marker with handler-level
priority over class-level; `if (isPublic) return true` — only an actual
`true` (JavaScript truthiness on `boolean | undefined`) bypasses; otherwise
fall through to the full JWT check of the parent guard. -/
def canActivate (mac : String → JwtClaims → Nat)
    (parse : String → Option Token) (env : Option String) (now : Nat)
    (handlerMarker clsMarker : Option Bool) (header : Option String) :
    GateResult :=
  match getAllAndOverride handlerMarker clsMarker with
  | some true => GateResult.admitted none
  | _ => jwtCheck mac parse env now header

end JwtAuthGuard

/-- The guard the app module installs process-wide: the `APP_GUARD` provider
of AppModule uses the class `JwtAuthGuard`, so the default gate of every
route is exactly `JwtAuthGuard.canActivate`. -/
def appGlobalGuard := @JwtAuthGuard.canActivate

/-- C3: with no public marker on either the handler or the class, the
process-wide default guard runs the full token check, and rejects whenever no
valid bearer token is present — header missing or malformed, token unparsable,
or verification failing. -/
theorem guard_default_deny_claim (mac : String → JwtClaims → Nat)
    (parse : String → Option Token) (env : Option String) (now : Nat)
    (header : Option String) :
    appGlobalGuard mac parse env now none none header
      = jwtCheck mac parse env now header ∧
    (extractBearer header = none →
      appGlobalGuard mac parse env now none none header
        = GateResult.rejected) ∧
    (∀ s t, extractBearer header = some s → parse s = some t →
      verifyAndDecode mac (jwtStrategySecret env) now t = none →
      appGlobalGuard mac parse env now none none header
        = GateResult.rejected) ∧
    (∀ s, extractBearer header = some s → parse s = none →
      appGlobalGuard mac parse env now none none header
        = GateResult.rejected) := by
  refine ⟨rfl, fun h => ?_, fun s t hs ht hv => ?_, fun s hs hp => ?_⟩ <;>
    simp [appGlobalGuard, JwtAuthGuard.canActivate, jwtCheck,
      getAllAndOverride, *]

/-- Witness for C3: a request with no Authorization header on an unmarked
route is rejected by the globally installed guard. -/
theorem guard_default_deny_claim_witness :
    appGlobalGuard (fun _ _ => 0) (fun _ => none) none 0 none none none
      = GateResult.rejected :=
  (guard_default_deny_claim (fun _ _ => 0) (fun _ => none) none 0 none).2.1
    (by rfl)

/-- C4: the handler-level marker, when present, decides: handler `true` with
class `false` admits with no token check at all (whatever the header), and
handler `false` with class `true` enforces the full token check — in
particular a request with no header is then rejected. -/
theorem guard_handler_override_claim (mac : String → JwtClaims → Nat)
    (parse : String → Option Token) (env : Option String) (now : Nat)
    (header : Option String) :
    JwtAuthGuard.canActivate mac parse env now (some true) (some false) header
      = GateResult.admitted none ∧
    JwtAuthGuard.canActivate mac parse env now (some false) (some true) header
      = jwtCheck mac parse env now header ∧
    JwtAuthGuard.canActivate mac parse env now (some false) (some true) none
      = GateResult.rejected := by
  refine ⟨rfl, rfl, rfl⟩

/-! ## Secret misconfiguration (C5) -/

/-- Counterexample to C5: with JWT_SECRET absent from the environment,
startup does not fail — it succeeds and configures signing with the public
placeholder string, and the strategy verifies with that same placeholder.
The code has no error or warning path for a missing or placeholder secret. -/
theorem secret_fallback_counterexample :
    authModuleStartup none
      = Except.ok { secret := "YOUR_SECRET_KEY", expiresIn := 60 } ∧
    (authModuleStartup none).isOk = true ∧
    jwtStrategySecret none = "YOUR_SECRET_KEY" :=
  ⟨rfl, rfl, rfl⟩

/-- C5 amended: startup never fails, whatever the environment; an absent or
empty JWT_SECRET makes both the signing side and the verification side fall
back silently to the same known placeholder secret. -/
theorem secret_fallback_amended (env : Option String) :
    authModuleStartup env
      = Except.ok { secret := jwtModuleSecret env, expiresIn := ttlSeconds } ∧
    jwtStrategySecret env = jwtModuleSecret env ∧
    jwtModuleSecret none = "YOUR_SECRET_KEY" ∧
    jwtModuleSecret (some "") = "YOUR_SECRET_KEY" := by
  refine ⟨rfl, ?_, rfl, rfl⟩
  cases env <;> rfl

/-! ## The password-hash boundary (C6) -/

/-- Counterexample to C6: `UsersService.findByUsername` hands its caller the
full stored record, password hash included — the claim that every user lookup
result exposed to callers has the password field absent is false. (Indeed
validateUser relies on receiving the hash from this very lookup.) -/
theorem password_exposure_counterexample :
    UsersService.findByUsername
        [⟨"u1", "john", "bcrypt-hash-1", "J", "D", "j@x"⟩] "john"
      = some ⟨"u1", "john", "bcrypt-hash-1", "J", "D", "j@x"⟩ ∧
    (UsersService.findByUsername
        [⟨"u1", "john", "bcrypt-hash-1", "J", "D", "j@x"⟩] "john").map
          User.password
      = some ("bcrypt-hash-1") := by
  refine ⟨?_, ?_⟩ <;> rfl

/-- C6 amended: the values crossing the authentication boundary proper do
strip the password — every successful validateUser result is exactly a stored
record with the password removed, and create returns the saved record with
the password removed — but the UsersService lookups themselves (findByUsername)
return full records including the password hash to their callers. -/
theorem password_boundary_amended
    (compare : String → String → Except String Bool) (store : List User)
    (userName pass : String) (r : SafeUserDto)
    (hash : String → String) (genId : String) (dto : CreateUserDto)
    (h : AuthService.validateUser compare store userName pass
          = Except.ok (some r)) :
    (∃ u, UsersService.findByUsername store userName = some u ∧
      r = stripPassword u) ∧
    UsersService.create hash genId dto
      = stripPassword ⟨genId, dto.userName, hash dto.password,
          dto.fName, dto.lName, dto.email⟩ ∧
    (∀ u, UsersService.findByUsername store userName = some u →
      u ∈ store) := by
  refine ⟨?_, rfl, fun u hu => List.mem_of_find?_eq_some hu⟩
  unfold AuthService.validateUser at h
  cases hfind : UsersService.findByUsername store userName with
  | none => simp [hfind] at h
  | some u =>
    refine ⟨u, rfl, ?_⟩
    rw [hfind] at h
    cases hc : compare pass u.password with
    | error e => simp [hc] at h
    | ok b =>
      cases b with
      | false => simp [hc] at h
      | true => simp [hc] at h; exact h.symm

/-- Witness for the amended C6: on a one-user store, a successful validateUser
yields the stored record stripped of its password, create strips the saved
record, and the lookup result is the full stored record. -/
theorem password_boundary_amended_witness :
    (∃ u, UsersService.findByUsername
        [⟨"u1", "john", "hash1", "J", "D", "j@x"⟩] "john" = some u ∧
      (⟨"u1", "john", "J", "D", "j@x"⟩ : SafeUserDto) = stripPassword u) ∧
    UsersService.create (fun p => p ++ "#h") "u2"
        ⟨"ann", "pw", "A", "B", "a@x"⟩
      = stripPassword ⟨"u2", "ann", "pw" ++ "#h", "A", "B", "a@x"⟩ ∧
    (∀ u, UsersService.findByUsername
        [⟨"u1", "john", "hash1", "J", "D", "j@x"⟩] "john" = some u →
      u ∈ [⟨"u1", "john", "hash1", "J", "D", "j@x"⟩]) :=
  password_boundary_amended (fun p h => Except.ok (p == h))
    [⟨"u1", "john", "hash1", "J", "D", "j@x"⟩] "john" "hash1"
    ⟨"u1", "john", "J", "D", "j@x"⟩ (fun p => p ++ "#h") "u2"
    ⟨"ann", "pw", "A", "B", "a@x"⟩ (by rfl)

/-! ## bcrypt failure behaviour (C8) -/

/-- Modelled from the spec: the bcrypt `compare` routine itself is an external
dependency, not part of this repository's sources. Per the spec's
PasswordHasher contract, "any exception from malformed hash input is treated
as verification failure, not a crash": comparison against a malformed hash
string (`wellFormed h = false`) resolves to `false` instead of rejecting, so
the promise always resolves. `check` is the underlying correct-password test
for well-formed hashes. -/
def bcryptCompare (check : String → String → Bool)
    (wellFormed : String → Bool) (pass hashStr : String) :
    Except String Bool :=
  Except.ok (if wellFormed hashStr then check pass hashStr else false)

/-- C8: with the bcrypt comparison behaving as specified, no exception ever
escapes validateUser — on every input, including a stored record holding a
malformed hash, it resolves with `ok`; and when the stored hash is malformed
the result is `ok none`, the same outcome as a failed verification. -/
theorem validateUser_no_crash_claim (check : String → String → Bool)
    (wellFormed : String → Bool) (store : List User) (userName pass : String) :
    (∃ r, AuthService.validateUser (bcryptCompare check wellFormed)
        store userName pass = Except.ok r) ∧
    (∀ u, UsersService.findByUsername store userName = some u →
      wellFormed u.password = false →
      AuthService.validateUser (bcryptCompare check wellFormed)
        store userName pass = Except.ok none) := by
  constructor
  · unfold AuthService.validateUser
    cases hfind : UsersService.findByUsername store userName with
    | none => exact ⟨none, rfl⟩
    | some u =>
      cases hb : bcryptCompare check wellFormed pass u.password with
      | error e => simp [bcryptCompare] at hb
      | ok b =>
        cases b
        · exact ⟨none, by simp [hb]⟩
        · exact ⟨some (stripPassword u), by simp [hb]⟩
  · intro u hu hw
    simp [AuthService.validateUser, hu, bcryptCompare, hw]

/-- Witness for C8: a store whose only record holds the malformed hash
"not-a-hash" (only "$2b$10$ok" counts as well-formed here); validateUser
resolves to ok none rather than erroring. -/
theorem validateUser_no_crash_claim_witness :
    AuthService.validateUser
        (bcryptCompare (fun p h => p == h) (fun h => h == ("$2b$10$ok")))
        [⟨"u1", "john", "not-a-hash", "J", "D", "j@x"⟩] "john" "pw"
      = Except.ok none :=
  (validateUser_no_crash_claim (fun p h => p == h)
      (fun h => h == ("$2b$10$ok"))
      [⟨"u1", "john", "not-a-hash", "J", "D", "j@x"⟩] "john" "pw").2
    ⟨"u1", "john", "not-a-hash", "J", "D", "j@x"⟩ (by decide) (by decide)

/-! ## The user filter (C9) -/

/-- Counterexample to C9: at the empty filter string the claim fails. The
claim demands that `findAll` with filter `""` return exactly the users whose
userName equals the literal "%%", but the JavaScript truthiness test
`filter ?` treats the empty string as falsy, so the code returns the whole
store: a user named "alice" (≠ "%%") is returned. -/
theorem findAll_empty_filter_counterexample :
    UsersService.findAll [⟨"u1", "alice", "h", "A", "B", "a@x"⟩] (some "")
      = [⟨"u1", "alice", "h", "A", "B", "a@x"⟩] ∧
    ("alice" = "%" ++ "" ++ "%") = False := by
  refine ⟨rfl, by simp⟩

/-- C9 amended: for every nonempty filter string f, findAll returns exactly
the stored users whose userName is string-equal to the literal "%" ++ f ++ "%"
(the percent signs are ordinary characters, not a LIKE pattern, so a name
merely containing f does not match); with no filter, or with the empty filter
string (falsy in JavaScript), all users are returned. -/
theorem findAll_filter_amended (store : List User) (f : String)
    (hf : f ≠ "") :
    UsersService.findAll store (some f)
      = store.filter (fun u => u.userName == "%" ++ f ++ "%") ∧
    UsersService.findAll store none = store ∧
    UsersService.findAll store (some "") = store := by
  refine ⟨?_, rfl, rfl⟩
  simp [UsersService.findAll, hf]

/-- Witness for the amended C9: filter "li" on a two-user store returns only
the user literally named "%li%", not the user "alice" containing "li". -/
theorem findAll_filter_amended_witness :
    UsersService.findAll
        [⟨"u1", "alice", "h", "A", "B", "a@x"⟩,
         ⟨"u2", "%li%", "h", "C", "D", "c@x"⟩] (some "li")
      = List.filter (fun u => u.userName == "%" ++ "li" ++ "%")
          [⟨"u1", "alice", "h", "A", "B", "a@x"⟩,
           ⟨"u2", "%li%", "h", "C", "D", "c@x"⟩] ∧
    UsersService.findAll
        [⟨"u1", "alice", "h", "A", "B", "a@x"⟩,
         ⟨"u2", "%li%", "h", "C", "D", "c@x"⟩] none
      = [⟨"u1", "alice", "h", "A", "B", "a@x"⟩,
         ⟨"u2", "%li%", "h", "C", "D", "c@x"⟩] ∧
    UsersService.findAll
        [⟨"u1", "alice", "h", "A", "B", "a@x"⟩,
         ⟨"u2", "%li%", "h", "C", "D", "c@x"⟩] (some "")
      = [⟨"u1", "alice", "h", "A", "B", "a@x"⟩,
         ⟨"u2", "%li%", "h", "C", "D", "c@x"⟩] :=
  findAll_filter_amended
    [⟨"u1", "alice", "h", "A", "B", "a@x"⟩,
     ⟨"u2", "%li%", "h", "C", "D", "c@x"⟩] "li" (by decide)

/-! ## Quotes (C10) -/

/-- The `Quote` entity (src/quotes/quotes.entity.ts): generated numeric id,
author, quote text. -/
structure Quote where
  id : Int
  author : String
  quote : String
deriving Repr, DecidableEq

namespace QuotesService

/-- `QuotesService.getQuoteById` (src/quotes/quotes.service.ts lines 16-20):
`findOne({ where: { id } })`; a null result raises
`NotFoundException("Quote with " + id + " not found")`, embedded as the error
branch of `Except`; otherwise the found quote is returned. -/
def getQuoteById (store : List Quote) (id : Int) : Except String Quote :=
  match store.find? (fun q => q.id == id) with
  | some q => Except.ok q
  | none => Except.error ("Quote with " ++ toString id ++ " not found")

end QuotesService

/-- C10: getQuoteById returns the stored quote when one with the id exists,
raises the NotFoundException with message "Quote with <id> not found" when
none does, and in every case yields either a quote or that exception — never
null or undefined. -/
theorem getQuoteById_claim (store : List Quote) (id : Int) :
    (∀ q, store.find? (fun q => q.id == id) = some q →
      QuotesService.getQuoteById store id = Except.ok q) ∧
    (store.find? (fun q => q.id == id) = none →
      QuotesService.getQuoteById store id
        = Except.error ("Quote with " ++ toString id ++ " not found")) ∧
    ((∃ q, QuotesService.getQuoteById store id = Except.ok q) ∨
      QuotesService.getQuoteById store id
        = Except.error ("Quote with " ++ toString id ++ " not found")) := by
  refine ⟨fun q hq => ?_, fun h => ?_, ?_⟩
  · simp [QuotesService.getQuoteById, hq]
  · simp [QuotesService.getQuoteById, h]
  · unfold QuotesService.getQuoteById
    cases store.find? (fun q => q.id == id) with
    | none => exact Or.inr rfl
    | some q => exact Or.inl ⟨q, rfl⟩

/-- Witness for C10: a one-quote store — id 1 is found and returned, id 2
raises the not-found exception with the interpolated message. -/
theorem getQuoteById_claim_witness :
    QuotesService.getQuoteById [⟨1, "Twain", "Get started."⟩] 1
      = Except.ok ⟨1, "Twain", "Get started."⟩ ∧
    QuotesService.getQuoteById [⟨1, "Twain", "Get started."⟩] 2
      = Except.error ("Quote with 2 not found") :=
  ⟨(getQuoteById_claim [⟨1, "Twain", "Get started."⟩] 1).1
      ⟨1, "Twain", "Get started."⟩ (by rfl),
   (getQuoteById_claim [⟨1, "Twain", "Get started."⟩] 2).2.1 (by rfl)⟩
